import Mathlib

/-!
Verification development for HypeDragController v1.4.1
(src/HypeDragController.js).

The JavaScript source is shallowly embedded: element geometry and the
per-document registry become explicit state records, DOM lookups used by the
within-region resolver and the drop-target resolver become an explicit
environment record (`DomEnv`), numeric element properties become exact
rationals, and the drag handler becomes a pure step function from
(registry, element, event) to (registry, element, effects).  Function names
follow the source with the leading underscore of private helpers dropped
(`_computeConstrainedPosition` becomes `computeConstrainedPosition`, and so
on).
-/

set_option maxHeartbeats 1000000

namespace HypeDragController

/-- Axis-aligned box of a positioned element: the `left`, `top`, `width`,
`height` properties read through `hypeDocument.getElementProperty`. -/
structure Box where
  left : ℚ
  top : ℚ
  width : ℚ
  height : ℚ
deriving DecidableEq

/-- Resolved rectangular bound produced by `_getWithinBounds`. -/
structure Bounds where
  minX : ℚ
  maxX : ℚ
  minY : ℚ
  maxY : ℚ
deriving DecidableEq

/-- The `within` field of a constraint object: the literal string
`'parent'`, any other CSS-selector string, or a non-string value (which the
source warns about and treats as unresolvable). -/
inductive Within where
  | parent : Within
  | selector : String → Within
  | invalid : Within
deriving DecidableEq

/-- Constraint object stored in `doc.constraints[dragName]`.  Each bound is
optional (`undefined` in the source maps to `none`); `axis` is an arbitrary
string, only `'x'` and `'y'` having an effect. -/
structure ConstraintSpec where
  minX : Option ℚ
  maxX : Option ℚ
  minY : Option ℚ
  maxY : Option ℚ
  axis : Option String
  within : Option Within
deriving DecidableEq

/-- A candidate drop target: one element matched by
`sceneEl.querySelectorAll('[data-drop-target]')`, with `isSelf` marking the
`targetEl === element` comparison in the loop. -/
structure Target where
  isSelf : Bool
  box : Box
deriving DecidableEq

/-- DOM environment for one call: selector resolution inside the current
scene, the container used when `within === 'parent'` (the closest
`.HYPE_element` ancestor, falling back to the scene element, which always
exists), and the drop-target elements in document enumeration order. -/
structure DomEnv where
  queryBox : String → Option Box
  parentBox : Box
  dropTargets : List Target

/-- Drag session stored in `doc.dragData[dragName]`. -/
structure DragSession where
  initialLeft : ℚ
  initialTop : ℚ
  initialZ : ℚ
  startX : ℚ
  startY : ℚ
  isActive : Bool
deriving DecidableEq

/-- Interaction map entry for one drag name: which of the optional callbacks
are present as functions. -/
structure InteractionEntry where
  hasOnStart : Bool
  hasOnProgress : Bool
  hasOnDrop : Bool
deriving DecidableEq

/-- Per-document registry created by `_getDocRegistry`:
`{ dragData: {}, interactionMap: {}, constraints: {}, zCounter: 10000 }`. -/
structure Registry where
  dragData : String → Option DragSession
  interactionMap : String → Option InteractionEntry
  constraints : String → Option ConstraintSpec
  zCounter : ℚ

/-- Hype gesture event as consumed by the handler. -/
structure Event where
  hypeGesturePhase : String
  hypeGestureXPosition : ℚ
  hypeGestureYPosition : ℚ
deriving DecidableEq

/-- The configuration options the handler reads. -/
structure Options where
  bringToFront : Bool
deriving DecidableEq

/-- Draggable element state: the `data-drag-name` attribute, live geometry
properties, the cached `data-initial-left` / `data-initial-top` attributes,
and whether the `hypeDragElementLocked` class is present. -/
structure Elem where
  dragName : Option String
  left : ℚ
  top : ℚ
  width : ℚ
  height : ℚ
  zIndex : ℚ
  initialLeftAttr : Option ℚ
  initialTopAttr : Option ℚ
  locked : Bool
deriving DecidableEq

/-- Box of an element's live geometry. -/
def elemBox (el : Elem) : Box :=
  ⟨el.left, el.top, el.width, el.height⟩

/-- Side effects of one handler invocation that do not live in the modelled
state: console warnings, user callback invocations, the two
`setElementProperty` calls of the move phase, the `dropTarget` attached to
the event, and the scheduled deferred cleanup. -/
structure Effects where
  warnedMissingName : Bool
  startInvoked : Bool
  progressInvoked : Bool
  wrotePosition : Bool
  dropInvoked : Bool
  dropTarget : Option Nat
  scheduledCleanup : Bool
deriving DecidableEq

/-- Effects record with nothing fired. -/
def noEffects : Effects :=
  ⟨false, false, false, false, false, none, false⟩

/-- Keyed update of a string-keyed store, modelling
`obj[key] = value` (and `delete obj[key]` when `v = none`). -/
def mapSet {β : Type} (m : String → Option β) (k : String) (v : Option β) :
    String → Option β :=
  fun q => if q = k then v else m q

/-- Embedding of `_getWithinBounds` (source lines 151–196): resolve the
within region to a rectangle.  For `'parent'` the bounds are relative to the
container origin; for a selector they are absolute scene coordinates; an
unresolved selector or a non-string specification yields `null`. -/
def getWithinBounds (env : DomEnv) (elementWidth elementHeight : ℚ) :
    Within → Option Bounds
  | Within.parent =>
      some ⟨0, env.parentBox.width - elementWidth,
            0, env.parentBox.height - elementHeight⟩
  | Within.selector s =>
      match env.queryBox s with
      | none => none
      | some c =>
          some ⟨c.left, c.left + c.width - elementWidth,
                c.top, c.top + c.height - elementHeight⟩
  | Within.invalid => none

/-- Embedding of `_computeConstrainedPosition` (source lines 212–240):
boundary clamps, then the axis lock against the supplied baseline, then the
within-region clamp (skipped when the region does not resolve). -/
def computeConstrainedPosition (env : DomEnv) (elementWidth elementHeight : ℚ)
    (constraints : Option ConstraintSpec)
    (proposedLeft proposedTop axisBaselineLeft axisBaselineTop : ℚ) : ℚ × ℚ :=
  match constraints with
  | none => (proposedLeft, proposedTop)
  | some c =>
      let newLeft := proposedLeft
      let newTop := proposedTop
      let newLeft := match c.minX with | some v => max newLeft v | none => newLeft
      let newLeft := match c.maxX with | some v => min newLeft v | none => newLeft
      let newTop := match c.minY with | some v => max newTop v | none => newTop
      let newTop := match c.maxY with | some v => min newTop v | none => newTop
      let newTop := if c.axis = some ("x") then axisBaselineTop else newTop
      let newLeft := if c.axis = some ("y") then axisBaselineLeft else newLeft
      match c.within with
      | none => (newLeft, newTop)
      | some w =>
          match getWithinBounds env elementWidth elementHeight w with
          | none => (newLeft, newTop)
          | some b =>
              (max b.minX (min newLeft b.maxX), max b.minY (min newTop b.maxY))

/-- Overlap area of two boxes as computed in `_getDropTarget`
(source lines 125–131). -/
def overlapArea (drag target : Box) : ℚ :=
  let overlapLeft := max drag.left target.left
  let overlapTop := max drag.top target.top
  let overlapRight := min (drag.left + drag.width) (target.left + target.width)
  let overlapBottom := min (drag.top + drag.height) (target.top + target.height)
  let overlapWidth := max 0 (overlapRight - overlapLeft)
  let overlapHeight := max 0 (overlapBottom - overlapTop)
  overlapWidth * overlapHeight

/-- Strict-inequality intersection test of `_getDropTarget`
(source lines 119–122). -/
def intersects (drag target : Box) : Prop :=
  drag.left < target.left + target.width ∧
  drag.left + drag.width > target.left ∧
  drag.top < target.top + target.height ∧
  drag.top + drag.height > target.top

instance (drag target : Box) : Decidable (intersects drag target) := by
  unfold intersects
  infer_instance

/-- Loop of `_getDropTarget` (source lines 109–139) with the running index,
best target and maximum overlap area threaded explicitly.  `i` is the index
of the head of the remaining list within the full target list. -/
def dropTargetLoop (drag : Box) :
    List Target → Nat → Option Nat → ℚ → Option Nat
  | [], _, bestTarget, _ => bestTarget
  | t :: rest, i, bestTarget, maxOverlapArea =>
      if t.isSelf then
        dropTargetLoop drag rest (i + 1) bestTarget maxOverlapArea
      else if intersects drag t.box then
        let area := overlapArea drag t.box
        if maxOverlapArea < area then
          dropTargetLoop drag rest (i + 1) (some i) area
        else
          dropTargetLoop drag rest (i + 1) bestTarget maxOverlapArea
      else
        dropTargetLoop drag rest (i + 1) bestTarget maxOverlapArea

/-- Embedding of `_getDropTarget` (source lines 98–141): index of the chosen
drop-target element, `none` when `bestTarget` stays `null`. -/
def getDropTarget (drag : Box) (targets : List Target) : Option Nat :=
  dropTargetLoop drag targets 0 none 0

/-- Start-phase block of the handler (source lines 259–275): re-read live
geometry as the session baseline, refresh the cached attributes, store the
session, and raise the stacking order when `bringToFront` is on. -/
def startPhase (opts : Options) (dragName : String) (ev : Event) :
    Registry × Elem × Effects → Registry × Elem × Effects
  | (doc, el, eff) =>
      if ev.hypeGesturePhase = "start" then
        let initialLeft := el.left
        let initialTop := el.top
        let el := { el with initialLeftAttr := some initialLeft,
                            initialTopAttr := some initialTop }
        let sess : DragSession :=
          ⟨initialLeft, initialTop, el.zIndex,
           ev.hypeGestureXPosition, ev.hypeGestureYPosition, true⟩
        let doc := { doc with dragData := mapSet doc.dragData dragName (some sess) }
        let docEl :=
          if opts.bringToFront then
            ({ doc with zCounter := doc.zCounter + 1 },
             { el with zIndex := doc.zCounter + 1 })
          else (doc, el)
        let startInv :=
          match docEl.1.interactionMap dragName with
          | some i => i.hasOnStart
          | none => false
        (docEl.1, docEl.2, { eff with startInvoked := startInv })
      else (doc, el, eff)

/-- Position computed by the move-phase block (source lines 279–296):
pointer delta applied to the session baseline, then the constraint pass when
a constraint object is stored for the drag name. -/
def movePosition (env : DomEnv) (doc : Registry) (el : Elem) (dragName : String)
    (data : DragSession) (x y : ℚ) : ℚ × ℚ :=
  let newLeft := data.initialLeft + (x - data.startX)
  let newTop := data.initialTop + (y - data.startY)
  match doc.constraints dragName with
  | none => (newLeft, newTop)
  | some c =>
      computeConstrainedPosition env el.width el.height (some c)
        newLeft newTop data.initialLeft data.initialTop

/-- Move-phase block of the handler (source lines 277–306).  The guard is
`doc.dragData[dragName]` being present; the `isActive` flag is not
consulted. -/
def movePhase (env : DomEnv) (dragName : String) (ev : Event) :
    Registry × Elem × Effects → Registry × Elem × Effects
  | (doc, el, eff) =>
      if ev.hypeGesturePhase = "move" then
        match doc.dragData dragName with
        | none => (doc, el, eff)
        | some data =>
            let pos := movePosition env doc el dragName data
              ev.hypeGestureXPosition ev.hypeGestureYPosition
            let el := { el with left := pos.1, top := pos.2 }
            let progressInv :=
              match doc.interactionMap dragName with
              | some i => i.hasOnProgress
              | none => false
            (doc, el, { eff with wrotePosition := true,
                                 progressInvoked := progressInv })
      else (doc, el, eff)

/-- End/cancel-phase block of the handler (source lines 308–322): guarded by
an existing session that is still active; marks it inactive, resolves the
drop target, and schedules the deferred deletion. -/
def endPhase (env : DomEnv) (dragName : String) (ev : Event) :
    Registry × Elem × Effects → Registry × Elem × Effects
  | (doc, el, eff) =>
      if ev.hypeGesturePhase = "end" ∨ ev.hypeGesturePhase = "cancel" then
        match doc.dragData dragName with
        | some data =>
            if data.isActive then
              let doc := { doc with
                dragData := mapSet doc.dragData dragName
                  (some { data with isActive := false }) }
              let dropTarget := getDropTarget (elemBox el) env.dropTargets
              let dropInv :=
                match doc.interactionMap dragName with
                | some i => i.hasOnDrop
                | none => false
              (doc, el, { eff with dropInvoked := dropInv,
                                   dropTarget := dropTarget,
                                   scheduledCleanup := true })
            else (doc, el, eff)
        | none => (doc, el, eff)
      else (doc, el, eff)

/-- Embedding of the drag handler (source lines 250–323).  A missing
`data-drag-name` warns and returns; otherwise the three phase blocks run in
source order on the threaded state. -/
def handler (env : DomEnv) (opts : Options) (doc : Registry) (el : Elem)
    (ev : Event) : Registry × Elem × Effects :=
  match el.dragName with
  | none => (doc, el, ⟨true, false, false, false, false, none, false⟩)
  | some dragName =>
      endPhase env dragName ev
        (movePhase env dragName ev
          (startPhase opts dragName ev (doc, el, noEffects)))

/-- Firing of the deferred cleanup scheduled at end/cancel
(source line 321): `delete doc.dragData[dragName]`. -/
def cleanupFire (doc : Registry) (dragName : String) : Registry :=
  { doc with dragData := mapSet doc.dragData dragName none }

/-- Embedding of `lock` (source line 372): unconditionally add the
`hypeDragElementLocked` class. -/
def lock (el : Elem) : Elem :=
  { el with locked := true }

/-- Embedding of `unlock` (source line 379): unconditionally remove the
`hypeDragElementLocked` class. -/
def unlock (el : Elem) : Elem :=
  { el with locked := false }

/-- Embedding of `resetDragState` (source lines 574–593): unlock every
element in the scope bearing `data-drag-name` and clear its cached
baseline attributes, then replace the interaction map with an empty one.
The `hypeDocument.customData.gameState` write lives outside the modelled
registry. -/
def resetDragState (doc : Registry) (sceneElems : List Elem) :
    Registry × List Elem :=
  let sceneElems := sceneElems.map (fun el =>
    if el.dragName.isSome then
      let el := unlock el
      { el with initialLeftAttr := none, initialTopAttr := none }
    else el)
  ({ doc with interactionMap := fun _ => none }, sceneElems)

/-- Embedding of `_applyAutoSnap` (source lines 470–502): feed the current
position as both proposed position and axis baseline through the resolver,
and write the result (refreshing the cached attributes) only when it
differs. -/
def applyAutoSnap (env : DomEnv) (doc : Registry) (el : Elem) : Elem :=
  match el.dragName with
  | none => el
  | some dragName =>
      match doc.constraints dragName with
      | none => el
      | some c =>
          let currentLeft := el.left
          let currentTop := el.top
          let result := computeConstrainedPosition env el.width el.height
            (some c) currentLeft currentTop currentLeft currentTop
          let newLeft := result.1
          let newTop := result.2
          if newLeft ≠ currentLeft ∨ newTop ≠ currentTop then
            { el with left := newLeft, top := newTop,
                      initialLeftAttr := some newLeft,
                      initialTopAttr := some newTop }
          else el

/-- One registry-mutating operation of the engine, used to interleave
arbitrary activity between drag starts. -/
inductive Step where
  | gesture : Elem → Event → Step
  | cleanup : String → Step
  | reset : List Elem → Step

/-- Registry after one step. -/
def runStep (env : DomEnv) (opts : Options) (doc : Registry) : Step → Registry
  | Step.gesture el ev => (handler env opts doc el ev).1
  | Step.cleanup n => cleanupFire doc n
  | Step.reset elems => (resetDragState doc elems).1

/-- Registry after a list of steps. -/
def runSteps (env : DomEnv) (opts : Options) : Registry → List Step → Registry
  | doc, [] => doc
  | doc, s :: rest => runSteps env opts (runStep env opts doc s) rest

/-- Optional lower clamp, the `Math.max` applied when a minimum bound is
present. -/
def clampLow : Option ℚ → ℚ → ℚ
  | none, v => v
  | some a, v => max v a

/-- Optional upper clamp, the `Math.min` applied when a maximum bound is
present. -/
def clampHigh : Option ℚ → ℚ → ℚ
  | none, v => v
  | some b, v => min v b

/-- One coordinate of the resolver: boundary clamps, axis pin (when the axis
string equals `key`), within clamp against an optional `(lo, hi)` pair. -/
def resolveCoord (lo hi : Option ℚ) (axis : Option String) (key : String)
    (bnd : Option (ℚ × ℚ)) (p base : ℚ) : ℚ :=
  let v := clampHigh hi (clampLow lo p)
  let v := if axis = some key then base else v
  match bnd with
  | none => v
  | some cd => max cd.1 (min v cd.2)

/-- X-projection of the resolved within bounds. -/
def boundsX (env : DomEnv) (elementWidth elementHeight : ℚ) :
    Option Within → Option (ℚ × ℚ)
  | none => none
  | some w =>
      match getWithinBounds env elementWidth elementHeight w with
      | none => none
      | some b => some (b.minX, b.maxX)

/-- Y-projection of the resolved within bounds. -/
def boundsY (env : DomEnv) (elementWidth elementHeight : ℚ) :
    Option Within → Option (ℚ × ℚ)
  | none => none
  | some w =>
      match getWithinBounds env elementWidth elementHeight w with
      | none => none
      | some b => some (b.minY, b.maxY)

/-- Default target used with `List.getD`; marked `isSelf` so it can never be
selected. -/
def dfltTarget : Target :=
  ⟨true, ⟨0, 0, 0, 0⟩⟩

/-- Environment with no selector matches and no drop targets. -/
def envN : DomEnv :=
  ⟨fun _ => none, ⟨0, 0, 0, 0⟩, []⟩

/-- Options with `bringToFront` enabled (the source default). -/
def optsOn : Options :=
  ⟨true⟩

/-- Registry with empty stores and the initial stacking counter. -/
def docEmpty : Registry :=
  ⟨fun _ => none, fun _ => none, fun _ => none, 10000⟩

/-- Constraint used by concrete runs: bounds `[0,10] × [0,10]` plus
`axis:'x'`. -/
def specCexA : ConstraintSpec :=
  ⟨some 0, some 10, some 0, some 10, some ("x"), none⟩

/-- Constraint with ordered bounds only. -/
def specOrdered : ConstraintSpec :=
  ⟨some 0, some 10, some 0, some 10, none, none⟩

/-- Session whose baseline top (50) lies outside the `[0,10]` Y bounds. -/
def sessBase50 : DragSession :=
  ⟨0, 50, 0, 0, 0, true⟩

/-- Registry holding `sessBase50` and `specCexA` under drag name `a`. -/
def docCexA : Registry :=
  ⟨mapSet (fun _ => none) ("a") (some sessBase50), fun _ => none,
   mapSet (fun _ => none) ("a") (some specCexA), 10000⟩

/-- Registry holding `sessBase50` and the ordered-bounds constraint. -/
def docOrdered : Registry :=
  ⟨mapSet (fun _ => none) ("a") (some sessBase50), fun _ => none,
   mapSet (fun _ => none) ("a") (some specOrdered), 10000⟩

/-- Draggable element at `(0, 50)` named `a`. -/
def elCexA : Elem :=
  ⟨some ("a"), 0, 50, 10, 10, 0, none, none, false⟩

/-- Constraint combining `axis:'x'` with a within selector. -/
def specC2 : ConstraintSpec :=
  ⟨none, none, none, none, some ("x"), some (Within.selector ("s"))⟩

/-- Environment whose selector `s` resolves to the box
`(100, 100, 50, 50)`. -/
def envSel : DomEnv :=
  ⟨fun q => if q = "s" then some ⟨100, 100, 50, 50⟩ else none, ⟨0, 0, 0, 0⟩, []⟩

/-- Session with baseline `(0, 0)`. -/
def sessZero : DragSession :=
  ⟨0, 0, 0, 0, 0, true⟩

/-- Registry holding `sessZero` and `specC2` under drag name `a`. -/
def docC2 : Registry :=
  ⟨mapSet (fun _ => none) ("a") (some sessZero), fun _ => none,
   mapSet (fun _ => none) ("a") (some specC2), 10000⟩

/-- Draggable element at `(0, 0)` named `a`. -/
def elC2 : Elem :=
  ⟨some ("a"), 0, 0, 10, 10, 0, none, none, false⟩

/-- Registry holding an active session, a constraint and an interaction
entry, as left behind by a started drag. -/
def docC4 : Registry :=
  ⟨mapSet (fun _ => none) ("a") (some sessZero),
   mapSet (fun _ => none) ("a") (some ⟨true, true, true⟩),
   mapSet (fun _ => none) ("a") (some specOrdered), 10000⟩

/-- Locked element named `a` with cached baseline attributes. -/
def elLocked : Elem :=
  ⟨some ("a"), 1, 2, 3, 4, 5, some 9, some 9, true⟩

/-- Session already marked inactive by an end/cancel phase, before its
deferred cleanup has fired. -/
def sessInactive : DragSession :=
  ⟨0, 0, 0, 0, 0, false⟩

/-- Registry holding only the inactive session under drag name `a`. -/
def docC5 : Registry :=
  ⟨mapSet (fun _ => none) ("a") (some sessInactive), fun _ => none,
   fun _ => none, 10000⟩

/-- Element named `a` at the origin. -/
def elC5 : Elem :=
  ⟨some ("a"), 0, 0, 10, 10, 0, none, none, false⟩

/-- Element named `b`. -/
def elB : Elem :=
  ⟨some ("b"), 0, 0, 10, 10, 0, none, none, false⟩

/-- Element named `c`. -/
def elC : Elem :=
  ⟨some ("c"), 0, 0, 10, 10, 0, none, none, false⟩

/-- Element named `a` whose cached baseline attributes are stale (999/888)
while its live position is `(5, 6)`. -/
def elStale : Elem :=
  ⟨some ("a"), 5, 6, 10, 10, 3, some 999, some 888, false⟩

/-- Element with no `data-drag-name` attribute. -/
def elNoName : Elem :=
  ⟨none, 0, 0, 10, 10, 0, none, none, false⟩

/-- Dragged box used by the drop-target runs. -/
def dragC3 : Box :=
  ⟨0, 0, 100, 100⟩

/-- Two overlapping candidates: index 0 with overlap area 100, index 1 with
overlap area 2500. -/
def tsC3 : List Target :=
  [⟨false, ⟨90, 90, 20, 20⟩⟩, ⟨false, ⟨50, 50, 100, 100⟩⟩]

/-- One candidate that only touches the dragged box along its right edge. -/
def tsTouch : List Target :=
  [⟨false, ⟨100, 0, 50, 50⟩⟩]

/-- The start block is the identity on non-start phases. -/
theorem startPhase_skip (opts : Options) (n : String) (ev : Event)
    (s : Registry × Elem × Effects) (h : ¬ ev.hypeGesturePhase = "start") :
    startPhase opts n ev s = s := by
  rcases s with ⟨doc, el, eff⟩
  simp [startPhase, h]

/-- The move block is the identity on non-move phases. -/
theorem movePhase_skip (env : DomEnv) (n : String) (ev : Event)
    (s : Registry × Elem × Effects) (h : ¬ ev.hypeGesturePhase = "move") :
    movePhase env n ev s = s := by
  rcases s with ⟨doc, el, eff⟩
  simp [movePhase, h]

/-- The end block is the identity on phases other than end/cancel. -/
theorem endPhase_skip (env : DomEnv) (n : String) (ev : Event)
    (s : Registry × Elem × Effects)
    (h : ¬ (ev.hypeGesturePhase = "end" ∨ ev.hypeGesturePhase = "cancel")) :
    endPhase env n ev s = s := by
  rcases s with ⟨doc, el, eff⟩
  simp [endPhase, h]

/-- Evaluation of the handler on a move event when a session entry is
present (active or not): the registry is untouched, the element gets the
resolved position, and the write effects fire. -/
theorem handler_move_eq (env : DomEnv) (opts : Options) (doc : Registry)
    (el : Elem) (x y : ℚ) (n : String) (data : DragSession)
    (hn : el.dragName = some n) (hd : doc.dragData n = some data) :
    handler env opts doc el ⟨"move", x, y⟩ =
      (doc,
       { el with left := (movePosition env doc el n data x y).1,
                 top := (movePosition env doc el n data x y).2 },
       { noEffects with
           wrotePosition := true
           progressInvoked :=
             (match doc.interactionMap n with
              | some i => i.hasOnProgress
              | none => false) }) := by
  have h1 : startPhase opts n ⟨"move", x, y⟩ (doc, el, noEffects) =
      (doc, el, noEffects) :=
    startPhase_skip _ _ _ _ (show ¬ ("move" : String) = "start" by decide)
  have h2 : movePhase env n ⟨"move", x, y⟩ (doc, el, noEffects) =
      (doc,
       { el with left := (movePosition env doc el n data x y).1,
                 top := (movePosition env doc el n data x y).2 },
       { noEffects with
           wrotePosition := true
           progressInvoked :=
             (match doc.interactionMap n with
              | some i => i.hasOnProgress
              | none => false) }) := by
    simp [movePhase, hd]
  simp only [handler, hn, h1, h2]
  exact endPhase_skip _ _ _ _
    (show ¬ (("move" : String) = "end" ∨ ("move" : String) = "cancel") by decide)

/-- Evaluation of the handler on a move event when no session entry is
present: complete no-op. -/
theorem handler_move_noentry (env : DomEnv) (opts : Options) (doc : Registry)
    (el : Elem) (x y : ℚ) (n : String)
    (hn : el.dragName = some n) (hd : doc.dragData n = none) :
    handler env opts doc el ⟨"move", x, y⟩ = (doc, el, noEffects) := by
  have h1 : startPhase opts n ⟨"move", x, y⟩ (doc, el, noEffects) =
      (doc, el, noEffects) :=
    startPhase_skip _ _ _ _ (show ¬ ("move" : String) = "start" by decide)
  have h2 : movePhase env n ⟨"move", x, y⟩ (doc, el, noEffects) =
      (doc, el, noEffects) := by
    simp [movePhase, hd]
  simp only [handler, hn, h1, h2]
  exact endPhase_skip _ _ _ _
    (show ¬ (("move" : String) = "end" ∨ ("move" : String) = "cancel") by decide)

/-- Evaluation of the handler on a start event: session written from live
geometry, cached attributes refreshed, stacking raised when configured. -/
theorem handler_start_eq (env : DomEnv) (opts : Options) (doc : Registry)
    (el : Elem) (x y : ℚ) (n : String) (hn : el.dragName = some n) :
    handler env opts doc el ⟨"start", x, y⟩ =
      (if opts.bringToFront then
        ({ doc with
             dragData := mapSet doc.dragData n
               (some ⟨el.left, el.top, el.zIndex, x, y, true⟩)
             zCounter := doc.zCounter + 1 },
         { el with
             initialLeftAttr := some el.left
             initialTopAttr := some el.top
             zIndex := doc.zCounter + 1 },
         { noEffects with
             startInvoked :=
               (match doc.interactionMap n with
                | some i => i.hasOnStart
                | none => false) })
      else
        ({ doc with
             dragData := mapSet doc.dragData n
               (some ⟨el.left, el.top, el.zIndex, x, y, true⟩) },
         { el with
             initialLeftAttr := some el.left
             initialTopAttr := some el.top },
         { noEffects with
             startInvoked :=
               (match doc.interactionMap n with
                | some i => i.hasOnStart
                | none => false) })) := by
  have h2 : movePhase env n ⟨"start", x, y⟩
      (startPhase opts n ⟨"start", x, y⟩ (doc, el, noEffects)) =
      startPhase opts n ⟨"start", x, y⟩ (doc, el, noEffects) :=
    movePhase_skip _ _ _ _ (show ¬ ("start" : String) = "move" by decide)
  have h3 : endPhase env n ⟨"start", x, y⟩
      (startPhase opts n ⟨"start", x, y⟩ (doc, el, noEffects)) =
      startPhase opts n ⟨"start", x, y⟩ (doc, el, noEffects) :=
    endPhase_skip _ _ _ _
      (show ¬ (("start" : String) = "end" ∨ ("start" : String) = "cancel")
        by decide)
  simp only [handler, hn, h2, h3]
  by_cases hb : opts.bringToFront
  · simp [startPhase, hb, hn]
  · simp [startPhase, hb, hn]

/-- C8: at every start phase the handler captures the session baseline from
the element's live left/top geometry at that moment — for every prior state,
including one whose cached `data-initial-left`/`data-initial-top` attributes
disagree with the live position — and rewrites the cached attributes from
the same live values, so no stale baseline is ever reused and repeated drag
cycles measure from the element's position at each session's start. -/
theorem start_rereads_baseline (env : DomEnv) (opts : Options) (doc : Registry)
    (el : Elem) (x y : ℚ) (n : String) (hn : el.dragName = some n) :
    (handler env opts doc el ⟨"start", x, y⟩).1.dragData n =
      some ⟨el.left, el.top, el.zIndex, x, y, true⟩ ∧
    (handler env opts doc el ⟨"start", x, y⟩).2.1.initialLeftAttr =
      some el.left ∧
    (handler env opts doc el ⟨"start", x, y⟩).2.1.initialTopAttr =
      some el.top := by
  rw [handler_start_eq env opts doc el x y n hn]
  by_cases hb : opts.bringToFront
  · simp [hb, mapSet]
  · simp [hb, mapSet]

/-- Witness for `start_rereads_baseline`: an element whose cached attributes
(999/888) are stale relative to its live position (5, 6); the new session
baseline is the live position. -/
theorem start_rereads_baseline_witness :
    (handler envN optsOn docEmpty elStale ⟨"start", 1, 2⟩).1.dragData ("a") =
      some ⟨5, 6, 3, 1, 2, true⟩ ∧
    (handler envN optsOn docEmpty elStale ⟨"start", 1, 2⟩).2.1.initialLeftAttr =
      some 5 ∧
    (handler envN optsOn docEmpty elStale ⟨"start", 1, 2⟩).2.1.initialTopAttr =
      some 6 :=
  start_rereads_baseline envN optsOn docEmpty elStale 1 2 ("a") rfl

/-- C1 counterexample: with all four bounds set to `[0,10] × [0,10]` and
`axis:'x'` also set, a processed move writes `top = 50`, violating
`top ≤ maxY`, because the axis lock re-pins top to the session baseline
after the boundary clamp. -/
theorem axis_overrides_bounds_cex :
    docCexA.constraints ("a") = some specCexA ∧
    specCexA.minY = some 0 ∧ specCexA.maxY = some 10 ∧
    (handler envN optsOn docCexA elCexA ⟨"move", 0, 0⟩).2.2.wrotePosition =
      true ∧
    (handler envN optsOn docCexA elCexA ⟨"move", 0, 0⟩).2.1.top = 50 ∧
    ¬ ((handler envN optsOn docCexA elCexA ⟨"move", 0, 0⟩).2.1.top ≤ 10) := by
  decide

/-- C1 (amended): for every processed move under a constraint whose four
bounds are set with `minX ≤ maxX` and `minY ≤ maxY` and which sets neither
`axis` nor `within`, the written position satisfies the bounds. -/
theorem move_respects_bounds (env : DomEnv) (opts : Options) (doc : Registry)
    (el : Elem) (x y : ℚ) (n : String) (data : DragSession)
    (c : ConstraintSpec) (a b a2 b2 : ℚ)
    (hn : el.dragName = some n) (hd : doc.dragData n = some data)
    (hc : doc.constraints n = some c)
    (h1 : c.minX = some a) (h2 : c.maxX = some b)
    (h3 : c.minY = some a2) (h4 : c.maxY = some b2)
    (hab : a ≤ b) (hab2 : a2 ≤ b2)
    (hax : c.axis = none) (hw : c.within = none) :
    a ≤ (handler env opts doc el ⟨"move", x, y⟩).2.1.left ∧
    (handler env opts doc el ⟨"move", x, y⟩).2.1.left ≤ b ∧
    a2 ≤ (handler env opts doc el ⟨"move", x, y⟩).2.1.top ∧
    (handler env opts doc el ⟨"move", x, y⟩).2.1.top ≤ b2 := by
  rw [handler_move_eq env opts doc el x y n data hn hd]
  have hpos : movePosition env doc el n data x y =
      (min (max (data.initialLeft + (x - data.startX)) a) b,
       min (max (data.initialTop + (y - data.startY)) a2) b2) := by
    simp [movePosition, hc, computeConstrainedPosition, h1, h2, h3, h4, hax, hw]
  simp only [hpos]
  exact ⟨le_min (le_max_right _ _) hab, min_le_right _ _,
         le_min (le_max_right _ _) hab2, min_le_right _ _⟩

/-- Witness for `move_respects_bounds`: a move with pointer delta
`(100, 100)` from baseline `(0, 50)` lands clamped inside
`[0,10] × [0,10]`. -/
theorem move_respects_bounds_witness :
    (0 : ℚ) ≤ (handler envN optsOn docOrdered elCexA ⟨"move", 100, 100⟩).2.1.left ∧
    (handler envN optsOn docOrdered elCexA ⟨"move", 100, 100⟩).2.1.left ≤ 10 ∧
    (0 : ℚ) ≤ (handler envN optsOn docOrdered elCexA ⟨"move", 100, 100⟩).2.1.top ∧
    (handler envN optsOn docOrdered elCexA ⟨"move", 100, 100⟩).2.1.top ≤ 10 :=
  move_respects_bounds envN optsOn docOrdered elCexA 100 100 ("a") sessBase50
    specOrdered 0 10 0 10 rfl (by decide) (by decide) rfl rfl rfl rfl
    (by norm_num) (by norm_num) rfl rfl

/-- C2 counterexample: with `axis:'x'` and a within region whose Y-bounds
`[100, 140]` exclude the baseline top `0`, a processed move writes
`top = 100`, not the axis-lock baseline, because the within clamp runs after
the axis pin. -/
theorem within_overrides_axis_cex :
    docC2.constraints ("a") = some specC2 ∧ specC2.axis = some ("x") ∧
    docC2.dragData ("a") = some sessZero ∧ sessZero.initialTop = 0 ∧
    (handler envSel optsOn docC2 elC2 ⟨"move", 0, 0⟩).2.1.top = 100 ∧
    (handler envSel optsOn docC2 elC2 ⟨"move", 0, 0⟩).2.1.top ≠
      sessZero.initialTop := by
  have h : (handler envSel optsOn docC2 elC2 ⟨"move", 0, 0⟩).2.1.top = 100 := by
    rw [handler_move_eq envSel optsOn docC2 elC2 0 0 ("a") sessZero
      (by decide) (by decide)]
    norm_num [movePosition, computeConstrainedPosition, getWithinBounds,
      docC2, specC2, sessZero, elC2, envSel, mapSet]
  exact ⟨by decide, by decide, by decide, by decide, h,
    by rw [h]; norm_num [sessZero]⟩

/-- C2 (amended): for every processed move under a constraint with
`axis = 'x'`, the written top is the session's baseline top clamped into the
resolved within Y-bounds — in particular it equals the baseline top whenever
no within region is set or the region does not resolve, and whenever the
resolved Y-bounds contain the baseline top. -/
theorem axis_lock_top (env : DomEnv) (opts : Options) (doc : Registry)
    (el : Elem) (x y : ℚ) (n : String) (data : DragSession)
    (c : ConstraintSpec)
    (hn : el.dragName = some n) (hd : doc.dragData n = some data)
    (hc : doc.constraints n = some c) (hax : c.axis = some ("x")) :
    (handler env opts doc el ⟨"move", x, y⟩).2.1.top =
      (match boundsY env el.width el.height c.within with
       | none => data.initialTop
       | some cd => max cd.1 (min data.initialTop cd.2)) := by
  rw [handler_move_eq env opts doc el x y n data hn hd]
  rcases hw : c.within with _ | w
  · simp [movePosition, hc, computeConstrainedPosition, hax, hw, boundsY]
  · rcases hgb : getWithinBounds env el.width el.height w with _ | bnd
    · simp [movePosition, hc, computeConstrainedPosition, hax, hw, hgb, boundsY]
    · simp [movePosition, hc, computeConstrainedPosition, hax, hw, hgb, boundsY]

/-- Witness for `axis_lock_top`: with `axis:'x'`, no within region and
baseline top 50, a move with vertical delta 4 still writes top 50. -/
theorem axis_lock_top_witness :
    (handler envN optsOn docCexA elCexA ⟨"move", 3, 4⟩).2.1.top =
      sessBase50.initialTop :=
  axis_lock_top envN optsOn docCexA elCexA 3 4 ("a") sessBase50 specCexA
    rfl (by decide) (by decide) rfl

/-- C5 counterexample: a move arriving while the session entry is already
marked inactive (after end/cancel, before the deferred cleanup) is still
processed — the element position changes from 0 to 7. -/
theorem move_after_end_processed_cex :
    docC5.dragData ("a") = some sessInactive ∧
    sessInactive.isActive = false ∧
    (handler envN optsOn docC5 elC5 ⟨"move", 7, 9⟩).2.2.wrotePosition = true ∧
    (handler envN optsOn docC5 elC5 ⟨"move", 7, 9⟩).2.1.left = 7 ∧
    elC5.left = 0 := by
  rw [handler_move_eq envN optsOn docC5 elC5 7 9 ("a") sessInactive
    (by decide) (by decide)]
  norm_num [movePosition, docC5, sessInactive, elC5, mapSet, noEffects]

/-- C5 (amended): a move-phase event is processed exactly when the registry
holds a session entry for the identifier, regardless of the entry's active
flag; with no entry (no prior start, or after the deferred cleanup has
deleted the entry) the move is a complete no-op. -/
theorem move_processed_iff_entry (env : DomEnv) (opts : Options)
    (doc : Registry) (el : Elem) (x y : ℚ) (n : String)
    (hn : el.dragName = some n) :
    (doc.dragData n = none →
      handler env opts doc el ⟨"move", x, y⟩ = (doc, el, noEffects)) ∧
    (handler env opts doc el ⟨"move", x, y⟩).2.2.wrotePosition =
      (doc.dragData n).isSome := by
  rcases hd : doc.dragData n with _ | data
  · refine ⟨fun _ => handler_move_noentry env opts doc el x y n hn hd, ?_⟩
    rw [handler_move_noentry env opts doc el x y n hn hd]
    rfl
  · refine ⟨fun hcon => by simp [hd] at hcon, ?_⟩
    rw [handler_move_eq env opts doc el x y n data hn hd]
    rfl

/-- Witness for `move_processed_iff_entry`: with no session entry, a move on
an empty registry is a no-op and writes nothing. -/
theorem move_processed_iff_entry_witness :
    (docEmpty.dragData ("a") = none →
      handler envN optsOn docEmpty elC5 ⟨"move", 1, 2⟩ =
        (docEmpty, elC5, noEffects)) ∧
    (handler envN optsOn docEmpty elC5 ⟨"move", 1, 2⟩).2.2.wrotePosition =
      (docEmpty.dragData ("a")).isSome :=
  move_processed_iff_entry envN optsOn docEmpty elC5 1 2 ("a") rfl

/-- C9 counterexample: `lock` performs no identifier check — on an element
with no drag identifier it still adds the locked class and changes the
element's locked state, with no warning path in the source. -/
theorem lock_without_name_cex :
    elNoName.dragName = none ∧
    elNoName.locked = false ∧
    (lock elNoName).locked = true ∧
    (lock elNoName).locked ≠ elNoName.locked := by
  decide

/-- C9 (amended): `lock` and `unlock` apply unconditionally to any element —
with or without a drag identifier — setting or clearing the locked class and
changing nothing else; no identifier check or warning is performed. -/
theorem lock_unlock_unconditional (el : Elem) :
    lock el = { el with locked := true } ∧
    unlock el = { el with locked := false } :=
  ⟨rfl, rfl⟩

/-- C4 counterexample: `resetDragState` leaves the active drag session and
the constraint spec in the registry untouched. -/
theorem resetDragState_keeps_sessions_cex :
    sessZero.isActive = true ∧
    (resetDragState docC4 [elLocked]).1.dragData ("a") = some sessZero ∧
    (resetDragState docC4 [elLocked]).1.constraints ("a") = some specOrdered := by
  decide

/-- C4 (amended): after `resetDragState` the registry holds no interaction
handlers and every scope element bearing a drag identifier is unlocked with
its cached baseline attributes cleared, while drag sessions, constraint
specs and the stacking counter are left untouched. -/
theorem resetDragState_spec (doc : Registry) (elems : List Elem) :
    (∀ k, (resetDragState doc elems).1.interactionMap k = none) ∧
    (resetDragState doc elems).1.dragData = doc.dragData ∧
    (resetDragState doc elems).1.constraints = doc.constraints ∧
    (resetDragState doc elems).1.zCounter = doc.zCounter ∧
    (∀ el, el ∈ (resetDragState doc elems).2 → el.dragName.isSome = true →
      el.locked = false ∧ el.initialLeftAttr = none ∧
      el.initialTopAttr = none) := by
  refine ⟨fun k => rfl, rfl, rfl, rfl, fun el hel hname => ?_⟩
  simp only [resetDragState, List.mem_map] at hel
  rcases hel with ⟨el0, _, rfl⟩
  by_cases h0 : el0.dragName.isSome = true
  · simp [h0, unlock]
  · simp [h0] at hname

/-- Witness for `resetDragState_spec`: on the concrete registry and scope,
the interaction map is emptied and the locked element is unlocked. -/
theorem resetDragState_spec_witness :
    (resetDragState docC4 [elLocked]).1.interactionMap ("a") = none ∧
    ((resetDragState docC4 [elLocked]).2.getD 0 elNoName).locked = false :=
  ⟨(resetDragState_spec docC4 [elLocked]).1 ("a"),
   ((resetDragState_spec docC4 [elLocked]).2.2.2.2
      ((resetDragState docC4 [elLocked]).2.getD 0 elNoName)
      (by decide) (by decide)).1⟩

/-- The move block never touches the registry. -/
theorem movePhase_doc (env : DomEnv) (n : String) (ev : Event)
    (s : Registry × Elem × Effects) : (movePhase env n ev s).1 = s.1 := by
  rcases s with ⟨doc, el, eff⟩
  simp only [movePhase]
  split
  · split <;> rfl
  · rfl

/-- The end block never changes the stacking counter. -/
theorem endPhase_zCounter (env : DomEnv) (n : String) (ev : Event)
    (s : Registry × Elem × Effects) :
    (endPhase env n ev s).1.zCounter = s.1.zCounter := by
  rcases s with ⟨doc, el, eff⟩
  simp only [endPhase]
  split
  · split
    · split <;> rfl
    · rfl
  · rfl

/-- The start block never decreases the stacking counter. -/
theorem startPhase_zCounter_le (opts : Options) (n : String) (ev : Event)
    (s : Registry × Elem × Effects) :
    s.1.zCounter ≤ (startPhase opts n ev s).1.zCounter := by
  rcases s with ⟨doc, el, eff⟩
  by_cases hp : ev.hypeGesturePhase = "start"
  · by_cases hb : opts.bringToFront
    · simp [startPhase, hp, hb]
      try linarith
    · simp [startPhase, hp, hb]
  · simp [startPhase, hp]

/-- One handler invocation never decreases the stacking counter. -/
theorem handler_zCounter_le (env : DomEnv) (opts : Options) (doc : Registry)
    (el : Elem) (ev : Event) :
    doc.zCounter ≤ (handler env opts doc el ev).1.zCounter := by
  rcases hn : el.dragName with _ | n
  · simp [handler, hn]
  · simp only [handler, hn]
    have h1 := startPhase_zCounter_le opts n ev (doc, el, noEffects)
    have h2 := movePhase_doc env n ev (startPhase opts n ev (doc, el, noEffects))
    have h3 := endPhase_zCounter env n ev
      (movePhase env n ev (startPhase opts n ev (doc, el, noEffects)))
    rw [h3, h2]
    exact h1

/-- One engine step never decreases the stacking counter. -/
theorem runStep_zCounter_le (env : DomEnv) (opts : Options) (doc : Registry)
    (st : Step) : doc.zCounter ≤ (runStep env opts doc st).zCounter := by
  cases st with
  | gesture el ev => exact handler_zCounter_le env opts doc el ev
  | cleanup n => exact le_refl _
  | reset elems => exact le_refl _

/-- A step sequence never decreases the stacking counter. -/
theorem runSteps_zCounter_le (env : DomEnv) (opts : Options) :
    ∀ (steps : List Step) (doc : Registry),
      doc.zCounter ≤ (runSteps env opts doc steps).zCounter := by
  intro steps
  induction steps with
  | nil => intro doc; exact le_refl _
  | cons s rest ih =>
      intro doc
      exact le_trans (runStep_zCounter_le env opts doc s) (ih _)

/-- Start with `bringToFront` assigns the incremented counter both as the
element's new stacking value and as the stored counter. -/
theorem handler_start_zIndex (env : DomEnv) (opts : Options) (doc : Registry)
    (el : Elem) (x y : ℚ) (n : String) (hn : el.dragName = some n)
    (hb : opts.bringToFront = true) :
    (handler env opts doc el ⟨"start", x, y⟩).2.1.zIndex = doc.zCounter + 1 ∧
    (handler env opts doc el ⟨"start", x, y⟩).1.zCounter = doc.zCounter + 1 := by
  rw [handler_start_eq env opts doc el x y n hn]
  simp [hb]

/-- C6: with `bringToFront` enabled, the stacking values assigned at three
successive drag starts in one document are strictly increasing, for any
interleaved engine activity (`steps1`, `steps2`) between the starts. -/
theorem zIndex_strict_mono (env : DomEnv) (opts : Options)
    (doc0 doc1 doc2 : Registry) (e1 e2 e3 : Elem) (n1 n2 n3 : String)
    (x1 y1 x2 y2 x3 y3 : ℚ) (steps1 steps2 : List Step)
    (hb : opts.bringToFront = true)
    (h1 : e1.dragName = some n1) (h2 : e2.dragName = some n2)
    (h3 : e3.dragName = some n3)
    (hd1 : doc1 = runSteps env opts
      (handler env opts doc0 e1 ⟨"start", x1, y1⟩).1 steps1)
    (hd2 : doc2 = runSteps env opts
      (handler env opts doc1 e2 ⟨"start", x2, y2⟩).1 steps2) :
    (handler env opts doc0 e1 ⟨"start", x1, y1⟩).2.1.zIndex <
      (handler env opts doc1 e2 ⟨"start", x2, y2⟩).2.1.zIndex ∧
    (handler env opts doc1 e2 ⟨"start", x2, y2⟩).2.1.zIndex <
      (handler env opts doc2 e3 ⟨"start", x3, y3⟩).2.1.zIndex := by
  obtain ⟨hz1, hc1⟩ := handler_start_zIndex env opts doc0 e1 x1 y1 n1 h1 hb
  obtain ⟨hz2, hc2⟩ := handler_start_zIndex env opts doc1 e2 x2 y2 n2 h2 hb
  obtain ⟨hz3, _⟩ := handler_start_zIndex env opts doc2 e3 x3 y3 n3 h3 hb
  have m1 : (handler env opts doc0 e1 ⟨"start", x1, y1⟩).1.zCounter ≤
      doc1.zCounter := by
    rw [hd1]
    exact runSteps_zCounter_le env opts steps1 _
  have m2 : (handler env opts doc1 e2 ⟨"start", x2, y2⟩).1.zCounter ≤
      doc2.zCounter := by
    rw [hd2]
    exact runSteps_zCounter_le env opts steps2 _
  rw [hc1] at m1
  rw [hc2] at m2
  exact ⟨by rw [hz1, hz2]; linarith, by rw [hz2, hz3]; linarith⟩

/-- Witness for `zIndex_strict_mono`: three consecutive starts on elements
named a, b, c from the initial counter. -/
theorem zIndex_strict_mono_witness :
    (handler envN optsOn docEmpty elC5 ⟨"start", 0, 0⟩).2.1.zIndex <
      (handler envN optsOn (handler envN optsOn docEmpty elC5
        ⟨"start", 0, 0⟩).1 elB ⟨"start", 0, 0⟩).2.1.zIndex ∧
    (handler envN optsOn (handler envN optsOn docEmpty elC5
        ⟨"start", 0, 0⟩).1 elB ⟨"start", 0, 0⟩).2.1.zIndex <
      (handler envN optsOn (handler envN optsOn (handler envN optsOn docEmpty
        elC5 ⟨"start", 0, 0⟩).1 elB ⟨"start", 0, 0⟩).1 elC
        ⟨"start", 0, 0⟩).2.1.zIndex :=
  zIndex_strict_mono envN optsOn docEmpty
    (handler envN optsOn docEmpty elC5 ⟨"start", 0, 0⟩).1
    (handler envN optsOn (handler envN optsOn docEmpty elC5
      ⟨"start", 0, 0⟩).1 elB ⟨"start", 0, 0⟩).1
    elC5 elB elC ("a") ("b") ("c") 0 0 0 0 0 0 [] []
    rfl rfl rfl rfl rfl rfl

/-- Overlap area is never negative. -/
theorem overlapArea_nonneg (drag t : Box) : 0 ≤ overlapArea drag t := by
  unfold overlapArea
  exact mul_nonneg (le_max_left _ _) (le_max_left _ _)

/-- A pair of boxes failing the strict intersection test has overlap area
zero. -/
theorem area_eq_zero_of_not_intersects (drag t : Box)
    (h : ¬ intersects drag t) : overlapArea drag t = 0 := by
  have hcases : ¬ (drag.left < t.left + t.width) ∨
      ¬ (drag.left + drag.width > t.left) ∨
      ¬ (drag.top < t.top + t.height) ∨
      ¬ (drag.top + drag.height > t.top) := by
    unfold intersects at h
    tauto
  rcases hcases with h1 | h1 | h1 | h1
  · have hle : min (drag.left + drag.width) (t.left + t.width) -
        max drag.left t.left ≤ 0 := by
      have a1 : min (drag.left + drag.width) (t.left + t.width) ≤
          t.left + t.width := min_le_right _ _
      have a2 : drag.left ≤ max drag.left t.left := le_max_left _ _
      have a3 := not_lt.mp h1
      linarith
    simp only [overlapArea]
    rw [max_eq_left hle, zero_mul]
  · have hle : min (drag.left + drag.width) (t.left + t.width) -
        max drag.left t.left ≤ 0 := by
      have a1 : min (drag.left + drag.width) (t.left + t.width) ≤
          drag.left + drag.width := min_le_left _ _
      have a2 : t.left ≤ max drag.left t.left := le_max_right _ _
      have a3 := not_lt.mp h1
      linarith
    simp only [overlapArea]
    rw [max_eq_left hle, zero_mul]
  · have hle : min (drag.top + drag.height) (t.top + t.height) -
        max drag.top t.top ≤ 0 := by
      have a1 : min (drag.top + drag.height) (t.top + t.height) ≤
          t.top + t.height := min_le_right _ _
      have a2 : drag.top ≤ max drag.top t.top := le_max_left _ _
      have a3 := not_lt.mp h1
      linarith
    simp only [overlapArea]
    rw [max_eq_left hle, mul_zero]
  · have hle : min (drag.top + drag.height) (t.top + t.height) -
        max drag.top t.top ≤ 0 := by
      have a1 : min (drag.top + drag.height) (t.top + t.height) ≤
          drag.top + drag.height := min_le_left _ _
      have a2 : t.top ≤ max drag.top t.top := le_max_right _ _
      have a3 := not_lt.mp h1
      linarith
    simp only [overlapArea]
    rw [max_eq_left hle, mul_zero]

/-- A pair of boxes with positive overlap area passes the strict
intersection test. -/
theorem intersects_of_area_pos (drag t : Box)
    (h : 0 < overlapArea drag t) : intersects drag t := by
  by_contra hc
  rw [area_eq_zero_of_not_intersects drag t hc] at h
  exact lt_irrefl 0 h

/-- Skipping rewrite of the loop on the dragged element itself. -/
theorem dropTargetLoop_cons_skip (drag : Box) (t : Target) (rest : List Target)
    (i : Nat) (best : Option Nat) (maxA : ℚ) (hs : t.isSelf = true) :
    dropTargetLoop drag (t :: rest) i best maxA =
      dropTargetLoop drag rest (i + 1) best maxA := by
  simp [dropTargetLoop, hs]

/-- Rewrite of the loop on a candidate that does not beat the running
maximum. -/
theorem dropTargetLoop_cons_nolift (drag : Box) (t : Target)
    (rest : List Target) (i : Nat) (best : Option Nat) (maxA : ℚ)
    (hs : t.isSelf = false) (hle : ¬ maxA < overlapArea drag t.box) :
    dropTargetLoop drag (t :: rest) i best maxA =
      dropTargetLoop drag rest (i + 1) best maxA := by
  simp only [dropTargetLoop, hs, Bool.false_eq_true, if_false]
  by_cases hi : intersects drag t.box
  · simp [hi, hle]
  · simp [hi]

/-- Rewrite of the loop on a candidate that beats the running maximum. -/
theorem dropTargetLoop_cons_update (drag : Box) (t : Target)
    (rest : List Target) (i : Nat) (best : Option Nat) (maxA : ℚ)
    (hs : t.isSelf = false) (hlt : maxA < overlapArea drag t.box)
    (h0 : 0 ≤ maxA) :
    dropTargetLoop drag (t :: rest) i best maxA =
      dropTargetLoop drag rest (i + 1) (some i) (overlapArea drag t.box) := by
  have hi : intersects drag t.box :=
    intersects_of_area_pos _ _ (lt_of_le_of_lt h0 hlt)
  simp [dropTargetLoop, hs, hi, hlt]

/-- The loop returns `none` exactly when it started with no best target and
no non-self candidate in the remaining list exceeds the running maximum. -/
theorem dropTargetLoop_none_iff (drag : Box) :
    ∀ (ts : List Target) (i : Nat) (best : Option Nat) (maxA : ℚ),
      0 ≤ maxA →
      (dropTargetLoop drag ts i best maxA = none ↔
        best = none ∧ ∀ tg ∈ ts, tg.isSelf = false →
          overlapArea drag tg.box ≤ maxA) := by
  intro ts
  induction ts with
  | nil =>
      intro i best maxA h0
      simp [dropTargetLoop]
  | cons t rest ih =>
      intro i best maxA h0
      cases hs : t.isSelf with
      | true =>
          rw [dropTargetLoop_cons_skip drag t rest i best maxA hs,
            ih (i + 1) best maxA h0]
          simp [List.forall_mem_cons, hs]
      | false =>
          by_cases hlt : maxA < overlapArea drag t.box
          · rw [dropTargetLoop_cons_update drag t rest i best maxA hs hlt h0,
              ih (i + 1) (some i) _ (overlapArea_nonneg drag t.box)]
            simp only [List.forall_mem_cons, hs]
            constructor
            · rintro ⟨h, -⟩
              exact absurd h (by simp)
            · rintro ⟨-, hta, -⟩
              exact absurd (hta trivial) (not_le.mpr hlt)
          · rw [dropTargetLoop_cons_nolift drag t rest i best maxA hs hlt,
              ih (i + 1) best maxA h0]
            have hta : overlapArea drag t.box ≤ maxA := not_lt.mp hlt
            simp [List.forall_mem_cons, hs, hta]

/-- When the loop returns an index, that index is either the inherited best
target (and nothing in the remaining list beats the running maximum) or the
first candidate in the remaining list attaining the maximal overlap area
above the running maximum. -/
theorem dropTargetLoop_some (drag : Box) :
    ∀ (ts : List Target) (i : Nat) (best : Option Nat) (maxA : ℚ),
      0 ≤ maxA → ∀ k, dropTargetLoop drag ts i best maxA = some k →
      (best = some k ∧ ∀ tg ∈ ts, tg.isSelf = false →
        overlapArea drag tg.box ≤ maxA) ∨
      (∃ j, j < ts.length ∧ k = i + j ∧
        (ts.getD j dfltTarget).isSelf = false ∧
        maxA < overlapArea drag ((ts.getD j dfltTarget).box) ∧
        (∀ tg ∈ ts, tg.isSelf = false →
          overlapArea drag tg.box ≤
            overlapArea drag ((ts.getD j dfltTarget).box)) ∧
        (∀ j2, j2 < j → (ts.getD j2 dfltTarget).isSelf = false →
          overlapArea drag ((ts.getD j2 dfltTarget).box) <
            overlapArea drag ((ts.getD j dfltTarget).box))) := by
  intro ts
  induction ts with
  | nil =>
      intro i best maxA h0 k hk
      simp only [dropTargetLoop] at hk
      exact Or.inl ⟨hk, by simp⟩
  | cons t rest ih =>
      intro i best maxA h0 k hk
      cases hs : t.isSelf with
      | true =>
          rw [dropTargetLoop_cons_skip drag t rest i best maxA hs] at hk
          rcases ih (i + 1) best maxA h0 k hk with
            ⟨hb, hall⟩ | ⟨j, hj, hkj, hself, hlt2, hall, hfirst⟩
          · left
            refine ⟨hb, ?_⟩
            rw [List.forall_mem_cons]
            exact ⟨fun hf => absurd hf (by simp [hs]), hall⟩
          · right
            refine ⟨j + 1, by simp only [List.length_cons]; omega, by omega,
              by simpa using hself, by simpa using hlt2, ?_, ?_⟩
            · rw [List.forall_mem_cons]
              refine ⟨fun hf => absurd hf (by simp [hs]), ?_⟩
              simpa using hall
            · intro j2 hj2 hs2
              cases j2 with
              | zero =>
                  rw [List.getD_cons_zero] at hs2
                  rw [hs] at hs2
                  exact absurd hs2 (by simp)
              | succ j2 =>
                  simp only [List.getD_cons_succ] at hs2 ⊢
                  exact hfirst j2 (by omega) hs2
      | false =>
          by_cases hlt : maxA < overlapArea drag t.box
          · rw [dropTargetLoop_cons_update drag t rest i best maxA hs hlt h0]
              at hk
            rcases ih (i + 1) (some i) (overlapArea drag t.box)
                (overlapArea_nonneg drag t.box) k hk with
              ⟨hb, hall⟩ | ⟨j, hj, hkj, hself, hlt2, hall, hfirst⟩
            · right
              have hki : k = i := (Option.some.inj hb).symm
              refine ⟨0, by simp, by omega, by simpa using hs,
                by simpa using hlt, ?_, ?_⟩
              · rw [List.forall_mem_cons]
                simp only [List.getD_cons_zero]
                exact ⟨fun _ => le_rfl, hall⟩
              · intro j2 hj2
                exact absurd hj2 (Nat.not_lt_zero j2)
            · right
              refine ⟨j + 1, by simp only [List.length_cons]; omega, by omega,
                by simpa using hself, by simpa using lt_trans hlt hlt2,
                ?_, ?_⟩
              · rw [List.forall_mem_cons]
                simp only [List.getD_cons_succ]
                exact ⟨fun _ => le_of_lt hlt2, hall⟩
              · intro j2 hj2 hs2
                cases j2 with
                | zero =>
                    simp only [List.getD_cons_zero, List.getD_cons_succ]
                    exact hlt2
                | succ j2 =>
                    simp only [List.getD_cons_succ] at hs2 ⊢
                    exact hfirst j2 (by omega) hs2
          · rw [dropTargetLoop_cons_nolift drag t rest i best maxA hs hlt]
              at hk
            have hta : overlapArea drag t.box ≤ maxA := not_lt.mp hlt
            rcases ih (i + 1) best maxA h0 k hk with
              ⟨hb, hall⟩ | ⟨j, hj, hkj, hself, hlt2, hall, hfirst⟩
            · left
              refine ⟨hb, ?_⟩
              rw [List.forall_mem_cons]
              exact ⟨fun _ => hta, hall⟩
            · right
              refine ⟨j + 1, by simp only [List.length_cons]; omega, by omega,
                by simpa using hself, by simpa using hlt2, ?_, ?_⟩
              · rw [List.forall_mem_cons]
                simp only [List.getD_cons_succ]
                exact ⟨fun _ => le_of_lt (lt_of_le_of_lt hta hlt2), hall⟩
              · intro j2 hj2 hs2
                cases j2 with
                | zero =>
                    simp only [List.getD_cons_zero, List.getD_cons_succ]
                    exact lt_of_le_of_lt hta hlt2
                | succ j2 =>
                    simp only [List.getD_cons_succ] at hs2 ⊢
                    exact hfirst j2 (by omega) hs2

/-- When all four boxes have positive extent, passing the strict
intersection test forces a positive overlap area. -/
theorem area_pos_of_intersects (drag t : Box) (hdw : 0 < drag.width)
    (hdh : 0 < drag.height) (htw : 0 < t.width) (hth : 0 < t.height)
    (h : intersects drag t) : 0 < overlapArea drag t := by
  obtain ⟨i1, i2, i3, i4⟩ := h
  unfold overlapArea
  apply mul_pos
  · have hx : max drag.left t.left <
        min (drag.left + drag.width) (t.left + t.width) := by
      rw [max_lt_iff]
      constructor <;> rw [lt_min_iff] <;> constructor <;> linarith
    exact lt_of_lt_of_le (by linarith) (le_max_right _ _)
  · have hy : max drag.top t.top <
        min (drag.top + drag.height) (t.top + t.height) := by
      rw [max_lt_iff]
      constructor <;> rw [lt_min_iff] <;> constructor <;> linarith
    exact lt_of_lt_of_le (by linarith) (le_max_right _ _)

/-- C3: the drop-target resolver returns null exactly when no candidate
other than the dragged element has positive overlap area, and any returned
candidate is a valid non-self index of maximal overlap area that strictly
beats every earlier non-self candidate — so equal-area ties keep the first
candidate in enumeration order. -/
theorem getDropTarget_spec (drag : Box) (ts : List Target) :
    (getDropTarget drag ts = none ↔
      ∀ tg ∈ ts, tg.isSelf = false → overlapArea drag tg.box = 0) ∧
    (∀ k, getDropTarget drag ts = some k →
      k < ts.length ∧ (ts.getD k dfltTarget).isSelf = false ∧
      0 < overlapArea drag ((ts.getD k dfltTarget).box) ∧
      (∀ tg ∈ ts, tg.isSelf = false →
        overlapArea drag tg.box ≤
          overlapArea drag ((ts.getD k dfltTarget).box)) ∧
      (∀ j, j < k → (ts.getD j dfltTarget).isSelf = false →
        overlapArea drag ((ts.getD j dfltTarget).box) <
          overlapArea drag ((ts.getD k dfltTarget).box))) := by
  constructor
  · unfold getDropTarget
    rw [dropTargetLoop_none_iff drag ts 0 none 0 le_rfl]
    constructor
    · rintro ⟨-, h⟩ tg htg hf
      exact le_antisymm (h tg htg hf) (overlapArea_nonneg drag tg.box)
    · intro h
      exact ⟨rfl, fun tg htg hf => le_of_eq (h tg htg hf)⟩
  · intro k hk
    unfold getDropTarget at hk
    rcases dropTargetLoop_some drag ts 0 none 0 le_rfl k hk with
      ⟨hb, -⟩ | ⟨j, hj, hkj, hself, hpos, hall, hfirst⟩
    · exact absurd hb (by simp)
    · have hkeq : k = j := by omega
      subst hkeq
      exact ⟨hj, hself, hpos, hall, hfirst⟩

/-- Witness for `getDropTarget_spec`: between overlap areas 100 and 2500 the
resolver picks index 1, whose overlap area is positive. -/
theorem getDropTarget_spec_witness :
    getDropTarget dragC3 tsC3 = some 1 ∧
    0 < overlapArea dragC3 ((tsC3.getD 1 dfltTarget).box) := by
  have h : getDropTarget dragC3 tsC3 = some 1 := by
    norm_num [getDropTarget, dropTargetLoop, overlapArea, intersects,
      dragC3, tsC3]
  exact ⟨h, ((getDropTarget_spec dragC3 tsC3).2 1 h).2.2.1⟩

/-- C10: the resolver never returns a candidate whose overlap with the
dragged box has zero area; when every non-self candidate has zero overlap
area (it at most touches the dragged box) the result is null; and a
candidate of positive extent that merely touches a dragged box of positive
extent (zero overlap area) fails the strict intersection test. -/
theorem dropTarget_positive_area (drag : Box) (ts : List Target) :
    (∀ k, getDropTarget drag ts = some k →
      0 < overlapArea drag ((ts.getD k dfltTarget).box)) ∧
    ((∀ tg ∈ ts, tg.isSelf = false → overlapArea drag tg.box = 0) →
      getDropTarget drag ts = none) ∧
    (0 < drag.width → 0 < drag.height → ∀ tg ∈ ts, 0 < tg.box.width →
      0 < tg.box.height → overlapArea drag tg.box = 0 →
      ¬ intersects drag tg.box) := by
  refine ⟨?_, ?_, ?_⟩
  · intro k hk
    unfold getDropTarget at hk
    rcases dropTargetLoop_some drag ts 0 none 0 le_rfl k hk with
      ⟨hb, -⟩ | ⟨j, hj, hkj, -, hpos, -, -⟩
    · exact absurd hb (by simp)
    · have hkeq : k = j := by omega
      subst hkeq
      exact hpos
  · intro h
    unfold getDropTarget
    rw [dropTargetLoop_none_iff drag ts 0 none 0 le_rfl]
    exact ⟨rfl, fun tg htg hf => le_of_eq (h tg htg hf)⟩
  · intro hdw hdh tg htg htw hth hz hint
    have := area_pos_of_intersects drag tg.box hdw hdh htw hth hint
    rw [hz] at this
    exact lt_irrefl 0 this

/-- Witness for `dropTarget_positive_area`: a candidate touching the dragged
box only along an edge yields a null result. -/
theorem dropTarget_positive_area_witness :
    getDropTarget dragC3 tsTouch = none := by
  apply (dropTarget_positive_area dragC3 tsTouch).2.1
  intro tg htg hf
  simp only [tsTouch, List.mem_singleton] at htg
  subst htg
  norm_num [overlapArea, dragC3]

/-- A two-sided clamp is idempotent, with no assumption on bound order. -/
theorem clamp2_idem (c d x : ℚ) :
    max c (min (max c (min x d)) d) = max c (min x d) := by
  simp only [max_def, min_def]
  split_ifs <;> linarith

/-- The boundary-clamp pair is idempotent, with no assumption on bound
order. -/
theorem clampPair_idem (lo hi : Option ℚ) (x : ℚ) :
    clampHigh hi (clampLow lo (clampHigh hi (clampLow lo x))) =
      clampHigh hi (clampLow lo x) := by
  cases lo <;> cases hi <;>
    simp only [clampLow, clampHigh] <;>
    simp only [max_def, min_def] <;>
    split_ifs <;> linarith

/-- Re-running the boundary clamps after a within clamp and clamping into
the within bounds again changes nothing, with no assumption on bound
order. -/
theorem clampPair_within_idem (lo hi : Option ℚ) (c d x : ℚ) :
    max c (min (clampHigh hi (clampLow lo
        (max c (min (clampHigh hi (clampLow lo x)) d)))) d) =
      max c (min (clampHigh hi (clampLow lo x)) d) := by
  cases lo <;> cases hi <;>
    simp only [clampLow, clampHigh] <;>
    simp only [max_def, min_def] <;>
    split_ifs <;> linarith

/-- The resolver computes each coordinate independently through
`resolveCoord` against the projected within bounds. -/
theorem compute_eq_resolveCoord (env : DomEnv) (w h : ℚ) (c : ConstraintSpec)
    (pL pT bL bT : ℚ) :
    computeConstrainedPosition env w h (some c) pL pT bL bT =
      (resolveCoord c.minX c.maxX c.axis ("y") (boundsX env w h c.within) pL bL,
       resolveCoord c.minY c.maxY c.axis ("x") (boundsY env w h c.within)
         pT bT) := by
  rcases c with ⟨mx, Mx, my, My, ax, wi⟩
  rcases wi with _ | wv
  · cases mx <;> cases Mx <;> cases my <;> cases My <;> rfl
  · rcases hgb : getWithinBounds env w h wv with _ | b <;>
      simp only [computeConstrainedPosition, resolveCoord, clampLow,
        clampHigh, boundsX, boundsY, hgb] <;>
      cases mx <;> cases Mx <;> cases my <;> cases My <;> rfl

/-- One resolver coordinate fed its own output as both proposed value and
axis baseline is a fixed point. -/
theorem resolveCoord_selfbase_idem (lo hi : Option ℚ) (ax : Option String)
    (key : String) (bnd : Option (ℚ × ℚ)) (p : ℚ) :
    resolveCoord lo hi ax key bnd (resolveCoord lo hi ax key bnd p p)
        (resolveCoord lo hi ax key bnd p p) =
      resolveCoord lo hi ax key bnd p p := by
  by_cases hax : ax = some key
  · rcases bnd with _ | cd
    · simp [resolveCoord, hax]
    · simp only [resolveCoord, hax, if_pos]
      exact clamp2_idem cd.1 cd.2 p
  · rcases bnd with _ | cd
    · simp only [resolveCoord, hax, if_neg, ite_false]
      exact clampPair_idem lo hi p
    · simp only [resolveCoord, hax, if_neg, ite_false]
      exact clampPair_within_idem lo hi cd.1 cd.2 p

/-- Feeding the resolver's own output back as both proposed position and
axis baseline returns it unchanged. -/
theorem compute_selfbase_idem (env : DomEnv) (w h : ℚ) (c : ConstraintSpec)
    (p1 p2 : ℚ) :
    computeConstrainedPosition env w h (some c)
        (computeConstrainedPosition env w h (some c) p1 p2 p1 p2).1
        (computeConstrainedPosition env w h (some c) p1 p2 p1 p2).2
        (computeConstrainedPosition env w h (some c) p1 p2 p1 p2).1
        (computeConstrainedPosition env w h (some c) p1 p2 p1 p2).2 =
      computeConstrainedPosition env w h (some c) p1 p2 p1 p2 := by
  rw [compute_eq_resolveCoord env w h c p1 p2 p1 p2]
  rw [compute_eq_resolveCoord]
  dsimp only
  simp only [Prod.mk.injEq]
  exact ⟨resolveCoord_selfbase_idem c.minX c.maxX c.axis ("y")
      (boundsX env w h c.within) p1,
    resolveCoord_selfbase_idem c.minY c.maxY c.axis ("x")
      (boundsY env w h c.within) p2⟩

/-- Evaluation of `_applyAutoSnap` when the element has a drag name with a
stored constraint. -/
theorem applyAutoSnap_eq (env : DomEnv) (doc : Registry) (el : Elem)
    (n : String) (c : ConstraintSpec) (hn : el.dragName = some n)
    (hc : doc.constraints n = some c) :
    applyAutoSnap env doc el =
      (if (computeConstrainedPosition env el.width el.height (some c)
            el.left el.top el.left el.top).1 ≠ el.left ∨
          (computeConstrainedPosition env el.width el.height (some c)
            el.left el.top el.left el.top).2 ≠ el.top then
        { el with
            left := (computeConstrainedPosition env el.width el.height
              (some c) el.left el.top el.left el.top).1
            top := (computeConstrainedPosition env el.width el.height
              (some c) el.left el.top el.left el.top).2
            initialLeftAttr := some (computeConstrainedPosition env el.width
              el.height (some c) el.left el.top el.left el.top).1
            initialTopAttr := some (computeConstrainedPosition env el.width
              el.height (some c) el.left el.top el.left el.top).2 }
      else el) := by
  simp [applyAutoSnap, hn, hc]

/-- An element whose position is already a fixed point of the resolver is
left untouched by `_applyAutoSnap`. -/
theorem applyAutoSnap_fixed (env : DomEnv) (doc : Registry) (e : Elem)
    (n : String) (c : ConstraintSpec) (hn : e.dragName = some n)
    (hc : doc.constraints n = some c)
    (hfix : computeConstrainedPosition env e.width e.height (some c)
      e.left e.top e.left e.top = (e.left, e.top)) :
    applyAutoSnap env doc e = e := by
  rw [applyAutoSnap_eq env doc e n c hn hc, hfix]
  simp

/-- C7: `autoSnap` is idempotent — applying `_applyAutoSnap` twice in
succession (no external geometry change in between) leaves exactly the state
after one application, because the position after the first application is a
fixed point of the resolver fed the current position as both proposed
position and axis baseline. -/
theorem applyAutoSnap_idem (env : DomEnv) (doc : Registry) (el : Elem) :
    applyAutoSnap env doc (applyAutoSnap env doc el) =
      applyAutoSnap env doc el := by
  rcases hn : el.dragName with _ | n
  · simp [applyAutoSnap, hn]
  · rcases hc : doc.constraints n with _ | c
    · simp [applyAutoSnap, hn, hc]
    · have h1 := applyAutoSnap_eq env doc el n c hn hc
      by_cases hch : (computeConstrainedPosition env el.width el.height
            (some c) el.left el.top el.left el.top).1 ≠ el.left ∨
          (computeConstrainedPosition env el.width el.height (some c)
            el.left el.top el.left el.top).2 ≠ el.top
      · have hfirst : applyAutoSnap env doc el =
            { el with
                left := (computeConstrainedPosition env el.width el.height
                  (some c) el.left el.top el.left el.top).1
                top := (computeConstrainedPosition env el.width el.height
                  (some c) el.left el.top el.left el.top).2
                initialLeftAttr := some (computeConstrainedPosition env
                  el.width el.height (some c) el.left el.top el.left
                  el.top).1
                initialTopAttr := some (computeConstrainedPosition env
                  el.width el.height (some c) el.left el.top el.left
                  el.top).2 } := by
          rw [h1, if_pos hch]
        rw [hfirst]
        refine applyAutoSnap_fixed env doc _ n c hn hc ?_
        show computeConstrainedPosition env el.width el.height (some c)
            (computeConstrainedPosition env el.width el.height (some c)
              el.left el.top el.left el.top).1
            (computeConstrainedPosition env el.width el.height (some c)
              el.left el.top el.left el.top).2
            (computeConstrainedPosition env el.width el.height (some c)
              el.left el.top el.left el.top).1
            (computeConstrainedPosition env el.width el.height (some c)
              el.left el.top el.left el.top).2 =
          ((computeConstrainedPosition env el.width el.height (some c)
              el.left el.top el.left el.top).1,
           (computeConstrainedPosition env el.width el.height (some c)
              el.left el.top el.left el.top).2)
        rw [compute_selfbase_idem env el.width el.height c el.left el.top]
      · have hfirst : applyAutoSnap env doc el = el := by
          rw [h1, if_neg hch]
        rw [hfirst]
        exact hfirst

end HypeDragController
